import Mathlib

/-
Verification of the RPC session core in src/src/neovim.cpp.

The file shallowly embeds the data model and the operations of the
session: decoded protocol values, the message classification of
on_rpc_message, the response handler table with its round-robin slot
allocation, the response and routing paths, the write-source
suspend/resume discipline, and the spawn/connect setup paths.

Machine integers are modelled as Nat/Int with explicit reductions
modulo 2 ^ 32 (uint32_t) and 2 ^ 64 (size_t) where the code performs
such conversions.
-/

namespace Neovim

/-- Modelled from the spec: decoded values of the self-describing wire
protocol produced by the external codec collaborator (section 6 of the spec
lists sequences, integers, strings and nil among the top-level value
kinds; the codec library itself is out of scope). Only the kinds the
session inspects are modelled. -/
inductive MsgObject where
  | nil : MsgObject
  | boolean : Bool → MsgObject
  | integer : Int → MsgObject
  | string : String → MsgObject
  | array : List MsgObject → MsgObject

/-- Embeds obj.is of msg integer. -/
def isInteger : MsgObject → Bool
  | .integer _ => true
  | _ => false

/-- Embeds obj.is of msg string. -/
def isString : MsgObject → Bool
  | .string _ => true
  | _ => false

/-- Embeds obj.is of msg array. -/
def isArray : MsgObject → Bool
  | .array _ => true
  | _ => false

/-- Embeds obj.get of msg integer (used only under an isInteger guard
in the source). -/
def getInteger : MsgObject → Int
  | .integer n => n
  | _ => 0

/-- Embeds obj.get of msg string (used only under an isString guard). -/
def getString : MsgObject → String
  | .string s => s
  | _ => ""

/-- Embeds obj.get of msg array (used only under an isArray guard). -/
def getArray : MsgObject → List MsgObject
  | .array xs => xs
  | _ => []

/-- Modelled from the spec: the name the codec gives to the type of a decoded
value, as logged for malformed messages (the type naming
routine of the codec is part of the out-of-scope encoder/decoder collaborator). -/
def type_string : MsgObject → String
  | .nil => "nil"
  | .boolean _ => "boolean"
  | .integer _ => "integer"
  | .string _ => "string"
  | .array _ => "array"

mutual

/-- Modelled from the spec: the textual rendering the codec gives of a decoded
value, as logged for malformed messages and unmatched responses (the
rendering routine is part of the out-of-scope codec collaborator). -/
def to_string : MsgObject → String
  | .nil => "nil"
  | .boolean b => if b then "true" else "false"
  | .integer n => toString n
  | .string s => s
  | .array xs => "[" ++ to_string_elems xs ++ "]"

/-- Modelled from the spec: comma-separated rendering of the elements
of an array value. -/
def to_string_elems : List MsgObject → String
  | [] => ""
  | [x] => to_string x
  | x :: y :: xs => to_string x ++ ", " ++ to_string_elems (y :: xs)

end

/-- Embeds is_notification (src/src/neovim.cpp lines 216 to 222):
a sequence of exactly 3 elements, element 0 an integer equal to 2,
element 1 a string, element 2 an array. -/
def is_notification (array : List MsgObject) : Bool :=
  array.length == 3 &&
  isInteger (array.getD 0 .nil) &&
  isString (array.getD 1 .nil) &&
  isArray (array.getD 2 .nil) &&
  (getInteger (array.getD 0 .nil) == 2)

/-- Embeds is_response (src/src/neovim.cpp lines 224 to 229):
a sequence of exactly 4 elements, elements 0 and 1 integers, element 0
equal to 1. -/
def is_response (array : List MsgObject) : Bool :=
  array.length == 4 &&
  isInteger (array.getD 0 .nil) &&
  isInteger (array.getD 1 .nil) &&
  (getInteger (array.getD 0 .nil) == 1)

/-- Classification outcome of on_rpc_message: the decoded array is
handed to the notification path, handed to the response path, or
logged as a type error with the decoded type and textual value and
dropped. -/
inductive RpcClass where
  | notification : List MsgObject → RpcClass
  | response : List MsgObject → RpcClass
  | malformed : String → String → RpcClass

/-- Embeds on_rpc_message (src/src/neovim.cpp lines 231 to 244). -/
def on_rpc_message (obj : MsgObject) : RpcClass :=
  match obj with
  | .array arr =>
      if is_notification arr then .notification arr
      else if is_response arr then .response arr
      else .malformed (type_string obj) (to_string obj)
  | _ => .malformed (type_string obj) (to_string obj)

/-- Effect of the notification path: a redraw notification is routed
to the ui sink, anything else is logged with its name and the textual
rendering of its arguments. -/
inductive NotificationEffect where
  | redraw : List MsgObject → NotificationEffect
  | logUnhandled : String → String → NotificationEffect

/-- Embeds on_rpc_notification (src/src/neovim.cpp lines 263 to 274):
name is element 1, args is element 2. -/
def on_rpc_notification (array : List MsgObject) : NotificationEffect :=
  let name := getString (array.getD 1 .nil)
  let args := getArray (array.getD 2 .nil)
  if name = "redraw" then .redraw args
  else .logUnhandled name (to_string (.array args))

/-- isInteger holds exactly on integer values. -/
theorem isInteger_iff (o : MsgObject) :
    isInteger o = true ↔ ∃ n, o = .integer n := by
  cases o <;> simp [isInteger]

/-- isString holds exactly on string values. -/
theorem isString_iff (o : MsgObject) :
    isString o = true ↔ ∃ s, o = .string s := by
  cases o <;> simp [isString]

/-- isArray holds exactly on array values. -/
theorem isArray_iff (o : MsgObject) :
    isArray o = true ↔ ∃ xs, o = .array xs := by
  cases o <;> simp [isArray]

/-- is_notification holds exactly on the three-element sequences whose
head is the integer 2, whose element 1 is a string and whose element 2
is an array. -/
theorem is_notification_iff (array : List MsgObject) :
    is_notification array = true ↔
      ∃ name args, array = [.integer 2, .string name, .array args] := by
  match array with
  | [] => simp [is_notification]
  | [a] => simp [is_notification]
  | [a, b] => simp [is_notification]
  | [a, b, c] =>
      cases a <;> cases b <;> cases c <;>
        simp [is_notification, isInteger, isString, isArray, getInteger]
  | a :: b :: c :: d :: rest => simp [is_notification]

/-- is_response holds exactly on the four-element sequences whose head
is the integer 1 and whose element 1 is an integer. -/
theorem is_response_iff (array : List MsgObject) :
    is_response array = true ↔
      ∃ i er res, array = [.integer 1, .integer i, er, res] := by
  match array with
  | [] => simp [is_response]
  | [a] => simp [is_response]
  | [a, b] => simp [is_response]
  | [a, b, c] => simp [is_response]
  | [a, b, c, d] =>
      cases a <;> cases b <;>
        simp [is_response, isInteger, getInteger]
  | a :: b :: c :: d :: e :: rest => simp [is_response]

/-- Embeds null_msgid (src/src/neovim.cpp line 19): the largest
uint32_t value, the sentinel id meaning no reply expected. -/
def null_msgid : Nat := 2 ^ 32 - 1

/-- Conversion of a decoded integer to size_t, as performed by the
assignment size_t msgid = array[1].get in on_rpc_response. -/
def toSizeT (n : Int) : Nat := (n % (2 ^ 64 : Int)).toNat

/-- A stored continuation: some token when the std function holds a
callable target (tokens identify continuations), none when it is an
empty response_handler. Truthiness of the C++ handler is isSome. -/
abbrev ResponseHandler := Option Nat

/-- Embeds the state of neovim::response_handler_table: the vector of
handlers and the last assigned index. -/
structure ResponseHandlerTable where
  handlers : List ResponseHandler
  last_index : Nat

/-- Embeds response_handler_table::has_handler (src/src/neovim.cpp
lines 21 to 23): id in bounds and the slot truthy. -/
def has_handler (t : ResponseHandlerTable) (id : Nat) : Bool :=
  decide (id < t.handlers.length) && (t.handlers.getD id none).isSome

/-- The loop test of find_empty: the slot at index i is falsy (out of
bounds reads are modelled as empty; the source never performs them
under the table invariant). -/
def slot_empty (hs : List ResponseHandler) (i : Nat) : Bool :=
  (hs.getD i none).isNone

/-- One for-loop of find_empty: starting at index i, scan fuel
consecutive indices and return the first whose slot is falsy. -/
def scan_empty (hs : List ResponseHandler) : Nat → Nat → Option Nat
  | _, 0 => none
  | i, fuel + 1 =>
      if slot_empty hs i then some i else scan_empty hs (i + 1) fuel

/-- Embeds response_handler_table::find_empty (src/src/neovim.cpp
lines 29 to 41): scan indices last_index + 1 up to size - 1, then
0 up to last_index, returning size when every slot is occupied. -/
def find_empty (t : ResponseHandlerTable) : Nat :=
  match scan_empty t.handlers (t.last_index + 1)
      (t.handlers.length - (t.last_index + 1)) with
  | some i => i
  | none =>
      match scan_empty t.handlers 0 (t.last_index + 1) with
      | some i => i
      | none => t.handlers.length

/-- Embeds response_handler_table::store (src/src/neovim.cpp lines 43
to 53): find an empty slot, double the vector when full (the new
new slots default to empty handlers), move the handler in, record
the index, and return it cast to uint32_t. -/
def store (t : ResponseHandlerTable) (handler : ResponseHandler) :
    ResponseHandlerTable × Nat :=
  let index := find_empty t
  let hs :=
    if index = t.handlers.length then
      t.handlers ++ List.replicate t.handlers.length none
    else t.handlers
  (⟨hs.set index handler, index⟩, index % 2 ^ 32)

/-- Iterated store: a sequence of consecutive store calls with no
intervening responses, returning the final table and the ids in call
order. -/
def storeAll (t : ResponseHandlerTable) :
    List ResponseHandler → ResponseHandlerTable × List Nat
  | [] => (t, [])
  | h :: rest =>
      let r1 := store t h
      let r2 := storeAll r1.1 rest
      (r2.1, r1.2 :: r2.2)

/-- The msgid read by on_rpc_response: element 1 converted to size_t. -/
def response_msgid (array : List MsgObject) : Nat :=
  toSizeT (getInteger (array.getD 1 .nil))

/-- The error value passed to the continuation: element 2. -/
def response_error (array : List MsgObject) : MsgObject := array.getD 2 .nil

/-- The result value passed to the continuation: element 3. -/
def response_result (array : List MsgObject) : MsgObject := array.getD 3 .nil

/-- Effect of the response path: the sentinel id is silently ignored,
an id with no stored handler is logged together with the textual
rendering of the response, and otherwise the stored continuation
(identified by its token) is invoked with the error and result
elements. -/
inductive ResponseEffect where
  | sentinelIgnored : ResponseEffect
  | logNoHandler : Nat → String → ResponseEffect
  | delivered : Nat → MsgObject → MsgObject → ResponseEffect

/-- Embeds on_rpc_response (src/src/neovim.cpp lines 246 to 261):
read the msgid, drop the sentinel, log unmatched ids, otherwise invoke
the handler with elements 2 and 3 and clear the slot. -/
def on_rpc_response (t : ResponseHandlerTable) (array : List MsgObject) :
    ResponseHandlerTable × ResponseEffect :=
  if response_msgid array = null_msgid then (t, .sentinelIgnored)
  else if has_handler t (response_msgid array) = false then
    (t, .logNoHandler (response_msgid array) (to_string (.array array)))
  else
    (⟨t.handlers.set (response_msgid array) none, t.last_index⟩,
     .delivered ((t.handlers.getD (response_msgid array) none).getD 0)
       (response_error array) (response_result array))

/-- The table invariant maintained by the session: the vector is
nonempty (the table is constructed with a nonzero capacity) and the
last assigned index is in bounds. -/
def table_inv (t : ResponseHandlerTable) : Prop :=
  0 < t.handlers.length ∧ t.last_index < t.handlers.length

/-- getD after set at the same in-bounds index yields the new value. -/
theorem getD_set_self {α : Type} (l : List α) (i : Nat) (a d : α)
    (h : i < l.length) : (l.set i a).getD i d = a := by
  induction l generalizing i with
  | nil => simp at h
  | cons x xs ih =>
      cases i with
      | zero => simp [List.set, List.getD]
      | succ n =>
          simp only [List.set, List.getD_cons_succ]
          exact ih n (by simpa using h)

/-- getD after set at a different index is unchanged. -/
theorem getD_set_ne {α : Type} (l : List α) (i j : Nat) (a d : α)
    (h : i ≠ j) : (l.set i a).getD j d = l.getD j d := by
  induction l generalizing i j with
  | nil => simp [List.set]
  | cons x xs ih =>
      cases i with
      | zero =>
          cases j with
          | zero => exact absurd rfl h
          | succ m => simp [List.set]
      | succ n =>
          cases j with
          | zero => simp [List.set]
          | succ m =>
              simp only [List.set, List.getD_cons_succ]
              exact ih n m (fun he => h (by rw [he]))

/-- getD within the left part of an append ignores the right part. -/
theorem getD_append_lt {α : Type} (l1 l2 : List α) (j : Nat) (d : α)
    (h : j < l1.length) : (l1 ++ l2).getD j d = l1.getD j d := by
  induction l1 generalizing j with
  | nil => simp at h
  | cons x xs ih =>
      cases j with
      | zero => simp
      | succ n =>
          simp only [List.cons_append, List.getD_cons_succ]
          exact ih n (by simpa using h)

/-- getD out of bounds yields the default. -/
theorem getD_len_le {α : Type} (l : List α) (j : Nat) (d : α)
    (h : l.length ≤ j) : l.getD j d = d := by
  induction l generalizing j with
  | nil => simp [List.getD]
  | cons x xs ih =>
      cases j with
      | zero => simp at h
      | succ n =>
          simp only [List.getD_cons_succ]
          exact ih n (by simpa using h)

/-- An out-of-bounds slot reads as empty. -/
theorem slot_empty_of_len_le (hs : List ResponseHandler) (j : Nat)
    (h : hs.length ≤ j) : slot_empty hs j = true := by
  unfold slot_empty
  rw [getD_len_le hs j none h]
  rfl

/-- An occupied slot is in bounds. -/
theorem lt_length_of_occupied (hs : List ResponseHandler) (j : Nat)
    (h : slot_empty hs j = false) : j < hs.length := by
  by_contra hc
  rw [slot_empty_of_len_le hs j (Nat.le_of_not_lt hc)] at h
  cases h

/-- A successful scan returns the first falsy slot of its range. -/
theorem scan_empty_some_spec (hs : List ResponseHandler) :
    ∀ fuel i j, scan_empty hs i fuel = some j →
      i ≤ j ∧ j < i + fuel ∧ slot_empty hs j = true ∧
      ∀ k, i ≤ k → k < j → slot_empty hs k = false := by
  intro fuel
  induction fuel with
  | zero => intro i j h; simp [scan_empty] at h
  | succ n ih =>
      intro i j h
      unfold scan_empty at h
      by_cases he : slot_empty hs i = true
      · rw [if_pos he] at h
        cases h
        exact ⟨Nat.le_refl i, by omega, he, fun k hk1 hk2 => by omega⟩
      · rw [if_neg he] at h
        obtain ⟨h1, h2, h3, h4⟩ := ih (i + 1) j h
        refine ⟨by omega, by omega, h3, fun k hk1 hk2 => ?_⟩
        rcases Nat.eq_or_lt_of_le hk1 with heq | hlt
        · rw [← heq]; exact Bool.eq_false_iff.mpr he
        · exact h4 k hlt hk2

/-- A failed scan means every slot of its range is occupied. -/
theorem scan_empty_none_spec (hs : List ResponseHandler) :
    ∀ fuel i, scan_empty hs i fuel = none →
      ∀ k, i ≤ k → k < i + fuel → slot_empty hs k = false := by
  intro fuel
  induction fuel with
  | zero => intro i _ k hk1 hk2; omega
  | succ n ih =>
      intro i h k hk1 hk2
      unfold scan_empty at h
      by_cases he : slot_empty hs i = true
      · rw [if_pos he] at h; cases h
      · rw [if_neg he] at h
        rcases Nat.eq_or_lt_of_le hk1 with heq | hlt
        · rw [← heq]; exact Bool.eq_false_iff.mpr he
        · exact ih (i + 1) h k hlt (by omega)

/-- find_empty never returns an index beyond the vector size. -/
theorem find_empty_le (t : ResponseHandlerTable)
    (hlast : t.last_index < t.handlers.length) :
    find_empty t ≤ t.handlers.length := by
  unfold find_empty
  split
  next i h1 =>
    obtain ⟨ha, hb, _, _⟩ := scan_empty_some_spec t.handlers _ _ _ h1
    omega
  next h1 =>
    split
    next i h2 =>
      obtain ⟨_, hb, _, _⟩ := scan_empty_some_spec t.handlers _ _ _ h2
      omega
    next h2 => exact Nat.le_refl _

/-- When find_empty returns an in-bounds index, that slot is empty. -/
theorem find_empty_slot_empty (t : ResponseHandlerTable)
    (h : find_empty t < t.handlers.length) :
    slot_empty t.handlers (find_empty t) = true := by
  revert h
  unfold find_empty
  split
  next i h1 =>
    intro _
    exact (scan_empty_some_spec t.handlers _ _ _ h1).2.2.1
  next h1 =>
    split
    next i h2 =>
      intro _
      exact (scan_empty_some_spec t.handlers _ _ _ h2).2.2.1
    next h2 => intro h; omega

/-- The new vector length after store: doubled exactly when the table
was full. -/
theorem store_fst_length (t : ResponseHandlerTable) (h : ResponseHandler) :
    (store t h).1.handlers.length =
      if find_empty t = t.handlers.length then 2 * t.handlers.length
      else t.handlers.length := by
  unfold store
  by_cases hfull : find_empty t = t.handlers.length <;>
    simp [hfull, Nat.two_mul]

/-- The index chosen by store is in bounds of the new vector. -/
theorem store_index_lt (t : ResponseHandlerTable) (h : ResponseHandler)
    (hsz : 0 < t.handlers.length)
    (hlast : t.last_index < t.handlers.length) :
    find_empty t < (store t h).1.handlers.length := by
  rw [store_fst_length]
  by_cases hfull : find_empty t = t.handlers.length
  · rw [if_pos hfull, hfull]; omega
  · rw [if_neg hfull]
    exact Nat.lt_of_le_of_ne (find_empty_le t hlast) hfull

/-- After store, the chosen slot holds the stored handler. -/
theorem store_getD_index (t : ResponseHandlerTable) (h : ResponseHandler)
    (hsz : 0 < t.handlers.length)
    (hlast : t.last_index < t.handlers.length) :
    (store t h).1.handlers.getD (find_empty t) none = h := by
  have hlt := store_index_lt t h hsz hlast
  unfold store at hlt ⊢
  by_cases hfull : find_empty t = t.handlers.length
  · simp only [hfull, if_pos rfl] at hlt ⊢
    exact getD_set_self _ _ _ _ (by simpa using hlt)
  · simp only [if_neg hfull] at hlt ⊢
    exact getD_set_self _ _ _ _ (by simpa using hlt)

/-- After store, every other previously existing slot is unchanged. -/
theorem store_getD_other (t : ResponseHandlerTable) (h : ResponseHandler)
    (j : Nat) (hne : j ≠ find_empty t) (hj : j < t.handlers.length) :
    (store t h).1.handlers.getD j none = t.handlers.getD j none := by
  unfold store
  by_cases hfull : find_empty t = t.handlers.length
  · simp only [hfull, if_pos rfl]
    rw [getD_set_ne _ _ _ _ _ (fun he => hne (by rw [← he, hfull]))]
    exact getD_append_lt _ _ _ _ hj
  · simp only [if_neg hfull]
    exact getD_set_ne _ _ _ _ _ (fun he => hne (by rw [← he]))

/-- store never evicts an occupied slot. -/
theorem store_preserves_occupied (t : ResponseHandlerTable)
    (h : ResponseHandler) (j : Nat)
    (hocc : slot_empty t.handlers j = false)
    (hsz : 0 < t.handlers.length)
    (hlast : t.last_index < t.handlers.length) :
    slot_empty (store t h).1.handlers j = false := by
  have hj := lt_length_of_occupied _ _ hocc
  have hne : j ≠ find_empty t := by
    intro he
    by_cases hfull : find_empty t = t.handlers.length
    · omega
    · have := find_empty_slot_empty t
        (Nat.lt_of_le_of_ne (find_empty_le t hlast) hfull)
      rw [← he] at this
      rw [this] at hocc
      cases hocc
  unfold slot_empty at hocc ⊢
  rw [store_getD_other t h j hne hj]
  exact hocc

/-- store preserves the table invariant. -/
theorem store_inv (t : ResponseHandlerTable) (h : ResponseHandler)
    (hinv : table_inv t) : table_inv (store t h).1 := by
  obtain ⟨hsz, hlast⟩ := hinv
  have hlt := store_index_lt t h hsz hlast
  constructor
  · omega
  · show (store t h).1.last_index < _
    have : (store t h).1.last_index = find_empty t := by
      unfold store
      by_cases hfull : find_empty t = t.handlers.length <;>
        simp [hfull]
    rw [this]
    exact hlt

/-- store never shrinks the vector. -/
theorem store_length_mono (t : ResponseHandlerTable) (h : ResponseHandler) :
    t.handlers.length ≤ (store t h).1.handlers.length := by
  rw [store_fst_length]
  by_cases hfull : find_empty t = t.handlers.length <;> simp [hfull] <;> omega

/-- When no truncation occurs the returned id is the chosen index. -/
theorem store_snd_eq (t : ResponseHandlerTable) (h : ResponseHandler)
    (hidx : find_empty t < 2 ^ 32) : (store t h).2 = find_empty t := by
  unfold store
  simp only []
  exact Nat.mod_eq_of_lt hidx

/-- State of the write path: the byte count held by the packer
(packer.size()), whether the write dispatch source is suspended, and a
counter of dispatch_resume calls on the write source (to state the
exactly-one-resume property). -/
structure Writer where
  buffer : Nat
  suspended : Bool
  resume_count : Nat

/-- The write-source state right after create_sources
(src/src/neovim.cpp lines 137 to 169): dispatch sources are created
suspended and only the read source is resumed, and nothing has been
packed yet. -/
def writer_init : Writer := ⟨0, true, 0⟩

/-- Embeds the write-source effects of neovim::rpc_request
(src/src/neovim.cpp lines 276 to 292): under the write lock, record
the old packer size, append the serialized request (nbytes bytes, a
positive amount for the 4-element envelope), and resume the write
source exactly when the buffer was empty before the append. -/
def rpc_request (w : Writer) (nbytes : Nat) : Writer :=
  if w.buffer = 0 then ⟨w.buffer + nbytes, false, w.resume_count + 1⟩
  else ⟨w.buffer + nbytes, w.suspended, w.resume_count⟩

/-- Result of a read or write syscall: err stands for a -1 return with
errno set, ok n for a return of n bytes. -/
inductive SysResult where
  | err : SysResult
  | ok : Nat → SysResult

/-- Outcome of the write-ready handler: either the whole process is
terminated through io_error (std::abort), or the session continues
with an updated write state. -/
inductive WriteOutcome where
  | aborted : WriteOutcome
  | continued : Writer → WriteOutcome

/-- Embeds neovim::io_can_write (src/src/neovim.cpp lines 190 to 203):
a failed write is fatal (io_error calls std::abort); otherwise the
written bytes are consumed and the write source suspends itself
exactly when the buffer drained to empty. -/
def io_can_write (w : Writer) (r : SysResult) : WriteOutcome :=
  match r with
  | .err => .aborted
  | .ok n =>
      if w.buffer - n = 0 then
        .continued ⟨w.buffer - n, true, w.resume_count⟩
      else .continued ⟨w.buffer - n, w.suspended, w.resume_count⟩

/-- Outcome of the read-ready handler: the fatal path through io_error,
the graceful shutdown path on end of stream, or the dispatch of the
envelopes decoded from the bytes just read. -/
inductive ReadOutcome where
  | aborted : ReadOutcome
  | closedShutdown : ReadOutcome
  | dispatched : List MsgObject → ReadOutcome

/-- Embeds neovim::io_can_read (src/src/neovim.cpp lines 171 to 188):
a -1 read is fatal (io_error calls std::abort), a zero-length read
closes the window and cancels the sources, and a positive read feeds
the unpacker and dispatches every decoded envelope (the decoded list
comes from the out-of-scope codec collaborator). -/
def io_can_read (r : SysResult) (decoded : List MsgObject) : ReadOutcome :=
  match r with
  | .err => .aborted
  | .ok 0 => .closedShutdown
  | .ok (_ + 1) => .dispatched decoded

/-- An event on the serialized write path: a caller queuing a request
of nbytes serialized bytes, or the write source firing with a syscall
result. -/
inductive WriteEvent where
  | request : Nat → WriteEvent
  | ready : SysResult → WriteEvent

/-- One step of the write path. -/
def writer_step (w : Writer) : WriteEvent → WriteOutcome
  | .request n => .continued (rpc_request w n)
  | .ready r => io_can_write w r

/-- Run of the write path over a sequence of events, stopping at the
fatal path. -/
def writer_run (w : Writer) : List WriteEvent → WriteOutcome
  | [] => .continued w
  | e :: es =>
      match writer_step w e with
      | .aborted => .aborted
      | .continued w1 => writer_run w1 es

/-- Validity of an event: a request always serializes a positive
number of bytes (the packer emits at least the envelope header). -/
def event_ok : WriteEvent → Prop
  | .request n => 0 < n
  | .ready _ => True

/-- The idle-writer invariant: outside callbacks the write source is
suspended exactly when the write buffer is empty. -/
def write_inv (w : Writer) : Prop := w.suspended = true ↔ w.buffer = 0

/-- Descriptor pair of the session, -1 meaning unset, as set by
the neovim constructor (src/src/neovim.cpp lines 55 to 61). -/
structure SessionFds where
  read_fd : Int
  write_fd : Int
  deriving DecidableEq

/-- The freshly constructed session: both descriptors unset. -/
def session_init : SessionFds := ⟨-1, -1⟩

/-- Modelled from the spec: outcomes of the external collaborators
used by neovim::spawn (the unnamed_pipe and process_spawn facilities
of spawn.hpp, which are not part of the session source): each pipe
open either fails with an error code or yields a read end and a write
end, and the process launch either succeeds (0) or fails with an error
code. -/
structure SpawnEnv where
  pipe1 : Except Int (Nat × Nat)
  pipe2 : Except Int (Nat × Nat)
  process_error : Int

/-- Result of a setup operation: the returned error code, the session
descriptors afterwards, and the descriptors that were opened during
the call and are neither closed nor owned by the session when it
returns. -/
structure SpawnResult where
  ret : Int
  fds : SessionFds
  leaked : List Nat
  deriving DecidableEq

/-- Embeds neovim::spawn (src/src/neovim.cpp lines 81 to 107) over the
modelled collaborators. Descriptor accounting: each open appends the
new descriptors; the unnamed_pipe destructors (modelled from the spec,
which promises that the collaborator owns its two descriptors until
released) close every end still owned when the function returns, and
release transfers an end to the session, so the erase chains record
exactly the closes and ownership transfers on each path. -/
def spawn (env : SpawnEnv) (s : SessionFds) : SpawnResult :=
  match env.pipe1 with
  | .error ec => ⟨ec, s, []⟩
  | .ok (p1r, p1w) =>
      match env.pipe2 with
      | .error ec => ⟨ec, s, ([p1r, p1w].erase p1r).erase p1w⟩
      | .ok (p2r, p2w) =>
          if env.process_error ≠ 0 then
            ⟨env.process_error, s,
             (((([p1r, p1w, p2r, p2w]).erase p1r).erase p1w).erase p2r).erase p2w⟩
          else
            ⟨0, ⟨(p1r : Int), (p2w : Int)⟩,
             (((([p1r, p1w, p2r, p2w]).erase p1r).erase p1w).erase p2r).erase p2w⟩

/-- Modelled from the spec: outcomes of the socket syscalls used by
neovim::connect — socket creation either fails with errno or yields a
descriptor, and the connect syscall either succeeds (0) or fails with
errno. -/
structure ConnectEnv where
  socket_result : Except Int Nat
  connect_errno : Int

/-- Result of connect: the returned error code, the session
descriptors, the descriptors opened during the call and neither closed
nor owned by the session at return, and which syscalls were reached. -/
structure ConnectResult where
  ret : Int
  fds : SessionFds
  leaked : List Nat
  socket_attempted : Bool
  connect_attempted : Bool
  deriving DecidableEq

/-- EINVAL as returned for an oversized address. -/
def EINVAL : Int := 22

/-- The byte size of sockaddr_un::sun_path on the target platform. -/
def sun_path_size : Nat := 104

/-- Embeds neovim::connect (src/src/neovim.cpp lines 109 to 135): an
address of sun_path size or longer is rejected with EINVAL before any
socket is created; otherwise a socket is created (failing with errno
on failure), and the connect syscall is attempted. On connect failure
the function returns errno without closing the socket descriptor. On
success the descriptor is owned by the session as both read and write
descriptor. -/
def connect (env : ConnectEnv) (addr : String) (s : SessionFds) :
    ConnectResult :=
  if sun_path_size ≤ addr.length then ⟨EINVAL, s, [], false, false⟩
  else
    match env.socket_result with
    | .error e => ⟨e, s, [], true, false⟩
    | .ok sock =>
        if env.connect_errno ≠ 0 then
          ⟨env.connect_errno, s, [sock], true, true⟩
        else
          ⟨0, ⟨(sock : Int), (sock : Int)⟩, [sock].erase sock, true, true⟩

/-- Step lemma: the unmatched branch of on_rpc_response. -/
theorem response_step_unmatched (t : ResponseHandlerTable)
    (array : List MsgObject)
    (h1 : response_msgid array ≠ null_msgid)
    (h2 : has_handler t (response_msgid array) = false) :
    on_rpc_response t array =
      (t, .logNoHandler (response_msgid array)
        (to_string (.array array))) := by
  unfold on_rpc_response
  rw [if_neg h1, h2]
  simp

/-- Step lemma: the delivery branch of on_rpc_response. -/
theorem response_step_delivered (t : ResponseHandlerTable)
    (array : List MsgObject)
    (h1 : response_msgid array ≠ null_msgid)
    (h2 : has_handler t (response_msgid array) = true) :
    on_rpc_response t array =
      (⟨t.handlers.set (response_msgid array) none, t.last_index⟩,
       .delivered ((t.handlers.getD (response_msgid array) none).getD 0)
         (response_error array) (response_result array)) := by
  unfold on_rpc_response
  rw [if_neg h1, h2]
  simp

/-- C1: a decoded sequence of exactly 3 elements whose element 0 is
the integer 2 (with element 1 a string name and element 2 an array of
arguments, as required for the typed extraction) is classified and
dispatched as a Notification with name element 1 and args element 2;
a sequence of exactly 4 elements whose element 0 is the integer 1 (and
whose element 1, the id, is an integer) is classified and routed as a
Response with id element 1, error element 2 and result element 3;
every other decoded value is classified as malformed and logged with
its decoded type and textual value, the classification being a total
function that neither crashes nor propagates. -/
theorem rpc_message_classified (obj : MsgObject) :
    (∀ name args, obj = .array [.integer 2, .string name, .array args] →
        on_rpc_message obj =
          .notification [.integer 2, .string name, .array args] ∧
        on_rpc_notification [.integer 2, .string name, .array args] =
          (if name = "redraw" then .redraw args
           else .logUnhandled name (to_string (.array args)))) ∧
    (∀ i er res, obj = .array [.integer 1, .integer i, er, res] →
        on_rpc_message obj = .response [.integer 1, .integer i, er, res] ∧
        response_msgid [.integer 1, .integer i, er, res] = toSizeT i ∧
        response_error [.integer 1, .integer i, er, res] = er ∧
        response_result [.integer 1, .integer i, er, res] = res) ∧
    ((∀ name args, obj ≠ .array [.integer 2, .string name, .array args]) →
     (∀ i er res, obj ≠ .array [.integer 1, .integer i, er, res]) →
        on_rpc_message obj = .malformed (type_string obj) (to_string obj)) := by
  refine ⟨?_, ?_, ?_⟩
  · intro name args h
    subst h
    exact ⟨rfl, rfl⟩
  · intro i er res h
    subst h
    exact ⟨rfl, rfl, rfl, rfl⟩
  · intro hn hr
    cases obj with
    | array arr =>
        have h1 : is_notification arr = false := by
          rw [Bool.eq_false_iff]
          intro hc
          obtain ⟨name, args, he⟩ := (is_notification_iff arr).mp hc
          exact hn name args (by rw [he])
        have h2 : is_response arr = false := by
          rw [Bool.eq_false_iff]
          intro hc
          obtain ⟨i, er, res, he⟩ := (is_response_iff arr).mp hc
          exact hr i er res (by rw [he])
        simp [on_rpc_message, h1, h2]
    | nil => rfl
    | boolean b => rfl
    | integer n => rfl
    | string s => rfl

/-- Witness for C1 at the example inputs of the spec. -/
theorem rpc_message_classified_witness :
    on_rpc_message (.array [.integer 2, .string "x", .array []]) =
      .notification [.integer 2, .string "x", .array []] ∧
    on_rpc_message (.array [.integer 1, .integer 7, .nil, .string "ok"]) =
      .response [.integer 1, .integer 7, .nil, .string "ok"] ∧
    on_rpc_message (.integer 5) =
      .malformed (type_string (.integer 5)) (to_string (.integer 5)) :=
  ⟨((rpc_message_classified _).1 "x" [] rfl).1,
   ((rpc_message_classified _).2.1 7 .nil (.string "ok") rfl).1,
   (rpc_message_classified _).2.2
     (fun name args h => nomatch h) (fun i er res h => nomatch h)⟩

/-- C4: a decoded Response whose id is the sentinel 0xFFFFFFFF is a
silent no-op: the table is unchanged, no continuation is invoked and
nothing is logged. -/
theorem sentinel_response_noop (t : ResponseHandlerTable)
    (array : List MsgObject) (h : response_msgid array = null_msgid) :
    on_rpc_response t array = (t, .sentinelIgnored) := by
  simp [on_rpc_response, h]

/-- Witness for C4: a response carrying the sentinel id leaves a
table with one pending handler untouched. -/
theorem sentinel_response_noop_witness :
    on_rpc_response ⟨[some 3], 0⟩
        [.integer 1, .integer 4294967295, .nil, .nil] =
      (⟨[some 3], 0⟩, .sentinelIgnored) :=
  sentinel_response_noop _ _ (by decide)

/-- C9: a decoded Response whose id is not the sentinel and has no
stored continuation is logged with the id and the textual rendering of
the response; the table is unchanged, no continuation is invoked and
the routing is a total function. -/
theorem unmatched_response_logged (t : ResponseHandlerTable)
    (array : List MsgObject)
    (h1 : response_msgid array ≠ null_msgid)
    (h2 : has_handler t (response_msgid array) = false) :
    on_rpc_response t array =
      (t, .logNoHandler (response_msgid array)
        (to_string (.array array))) :=
  response_step_unmatched t array h1 h2

/-- Witness for C9: a response with id 5 against a table whose only
slot is empty is logged and dropped. -/
theorem unmatched_response_logged_witness :
    on_rpc_response ⟨[none], 0⟩ [.integer 1, .integer 5, .nil, .nil] =
      (⟨[none], 0⟩,
       .logNoHandler (response_msgid [.integer 1, .integer 5, .nil, .nil])
         (to_string (.array [.integer 1, .integer 5, .nil, .nil]))) :=
  unmatched_response_logged _ _ (by decide) (by decide)

/-- C2: storing a continuation makes has_handler true on the returned
id; once a response with that id is routed, the continuation is
invoked with the error and result elements, the slot is cleared so
has_handler turns false, and a second response with the same id is
logged as unmatched rather than delivered — at-most-once delivery. -/
theorem store_then_deliver_once (t : ResponseHandlerTable) (tok : Nat)
    (hsz : 0 < t.handlers.length)
    (hlast : t.last_index < t.handlers.length)
    (hbound : t.handlers.length < null_msgid) :
    has_handler (store t (some tok)).1 (store t (some tok)).2 = true ∧
    ∀ array, response_msgid array = (store t (some tok)).2 →
      (on_rpc_response (store t (some tok)).1 array).2 =
        .delivered tok (response_error array) (response_result array) ∧
      has_handler (on_rpc_response (store t (some tok)).1 array).1
        (store t (some tok)).2 = false ∧
      (on_rpc_response (on_rpc_response (store t (some tok)).1 array).1
          array).2 =
        .logNoHandler (store t (some tok)).2 (to_string (.array array)) := by
  have hle := find_empty_le t hlast
  have hid : (store t (some tok)).2 = find_empty t :=
    store_snd_eq t _ (by unfold null_msgid at hbound; omega)
  have hlt := store_index_lt t (some tok) hsz hlast
  have hgetD := store_getD_index t (some tok) hsz hlast
  have hhh : has_handler (store t (some tok)).1 (store t (some tok)).2
      = true := by
    rw [hid]
    unfold has_handler
    rw [hgetD]
    simp [hlt]
  refine ⟨hhh, ?_⟩
  intro array hmsg
  have hne : response_msgid array ≠ null_msgid := by
    rw [hmsg, hid]
    unfold null_msgid at hbound ⊢
    omega
  have hhandler1 : has_handler (store t (some tok)).1
      (response_msgid array) = true := by
    rw [hmsg]; exact hhh
  have e1 := response_step_delivered (store t (some tok)).1 array
    hne hhandler1
  have htok : ((store t (some tok)).1.handlers.getD
      (response_msgid array) none) = some tok := by
    rw [hmsg, hid]; exact hgetD
  have hcleared : has_handler (on_rpc_response (store t (some tok)).1
      array).1 (store t (some tok)).2 = false := by
    rw [e1]
    unfold has_handler
    have hz : ((store t (some tok)).1.handlers.set (response_msgid array)
        none).getD ((store t (some tok)).2) none = none := by
      rw [hmsg] at htok ⊢
      exact getD_set_self _ _ _ _ (by rw [hid]; exact hlt)
    rw [hz]
    simp
  refine ⟨?_, hcleared, ?_⟩
  · rw [e1, htok]; rfl
  · have hmsg2 : has_handler (on_rpc_response (store t (some tok)).1
        array).1 (response_msgid array) = false := by
      rw [hmsg]; exact hcleared
    rw [response_step_unmatched _ _ hne hmsg2, hmsg]

/-- Witness for C2 on a one-slot table. -/
theorem store_then_deliver_once_witness :
    has_handler (store ⟨[none], 0⟩ (some 7)).1
      (store ⟨[none], 0⟩ (some 7)).2 = true ∧
    (on_rpc_response (store ⟨[none], 0⟩ (some 7)).1
        [.integer 1, .integer 0, .nil, .nil]).2 =
      .delivered 7 (response_error [.integer 1, .integer 0, .nil, .nil])
        (response_result [.integer 1, .integer 0, .nil, .nil]) := by
  have h := store_then_deliver_once ⟨[none], 0⟩ 7 (by decide) (by decide)
    (by decide)
  exact ⟨h.1, (h.2 [.integer 1, .integer 0, .nil, .nil] (by decide)).1⟩

/-- C10: storing an empty response_handler (no callable target) leaves
has_handler false on the returned id — occupancy is the truthiness of
the stored handler — so the slot reads as free to the loop
test of the allocator and a response arriving with that id is logged as unmatched
rather than invoked. -/
theorem empty_handler_not_stored (t : ResponseHandlerTable)
    (hsz : 0 < t.handlers.length)
    (hlast : t.last_index < t.handlers.length)
    (hbound : t.handlers.length < null_msgid) :
    has_handler (store t none).1 (store t none).2 = false ∧
    slot_empty (store t none).1.handlers (store t none).2 = true ∧
    ∀ array, response_msgid array = (store t none).2 →
      on_rpc_response (store t none).1 array =
        ((store t none).1,
         .logNoHandler (store t none).2 (to_string (.array array))) := by
  have hle := find_empty_le t hlast
  have hid : (store t none).2 = find_empty t :=
    store_snd_eq t _ (by unfold null_msgid at hbound; omega)
  have hgetD := store_getD_index t none hsz hlast
  have hfalse : has_handler (store t none).1 (store t none).2 = false := by
    rw [hid]
    unfold has_handler
    rw [hgetD]
    simp
  refine ⟨hfalse, ?_, ?_⟩
  · rw [hid]
    unfold slot_empty
    rw [hgetD]
    rfl
  · intro array hmsg
    have hne : response_msgid array ≠ null_msgid := by
      rw [hmsg, hid]
      unfold null_msgid at hbound ⊢
      omega
    have hff : has_handler (store t none).1 (response_msgid array)
        = false := by
      rw [hmsg]; exact hfalse
    rw [response_step_unmatched _ _ hne hff, hmsg]

/-- Witness for C10 on a one-slot table. -/
theorem empty_handler_not_stored_witness :
    has_handler (store ⟨[none], 0⟩ none).1 (store ⟨[none], 0⟩ none).2
      = false ∧
    on_rpc_response (store ⟨[none], 0⟩ none).1
        [.integer 1, .integer 0, .nil, .nil] =
      ((store ⟨[none], 0⟩ none).1,
       .logNoHandler (store ⟨[none], 0⟩ none).2
         (to_string (.array [.integer 1, .integer 0, .nil, .nil]))) := by
  have h := empty_handler_not_stored ⟨[none], 0⟩ (by decide) (by decide)
    (by decide)
  exact ⟨h.1, h.2.2 [.integer 1, .integer 0, .nil, .nil] (by decide)⟩

/-- When an empty slot exists strictly after last_index, find_empty
returns the lowest such index. -/
theorem find_empty_after (t : ResponseHandlerTable)
    (hlast : t.last_index < t.handlers.length)
    (hex : ∃ i, t.last_index < i ∧ i < t.handlers.length ∧
      slot_empty t.handlers i = true) :
    t.last_index < find_empty t ∧ find_empty t < t.handlers.length ∧
    slot_empty t.handlers (find_empty t) = true ∧
    ∀ j, t.last_index < j → j < find_empty t →
      slot_empty t.handlers j = false := by
  obtain ⟨i, hi1, hi2, hi3⟩ := hex
  unfold find_empty
  split
  next j h1 =>
      obtain ⟨ha, hb, hc, hd⟩ := scan_empty_some_spec _ _ _ _ h1
      exact ⟨by omega, by omega, hc, fun k hk1 hk2 => hd k (by omega) hk2⟩
  next h1 =>
      exfalso
      have hocc := scan_empty_none_spec _ _ _ h1 i (by omega) (by omega)
      rw [hocc] at hi3
      cases hi3

/-- When every slot strictly after last_index is occupied but an empty
slot exists at or before last_index, find_empty wraps and returns the
lowest empty index from the start. -/
theorem find_empty_wrap (t : ResponseHandlerTable)
    (hlast : t.last_index < t.handlers.length)
    (hall : ∀ i, t.last_index < i → i < t.handlers.length →
      slot_empty t.handlers i = false)
    (hex : ∃ i, i ≤ t.last_index ∧ slot_empty t.handlers i = true) :
    find_empty t ≤ t.last_index ∧
    slot_empty t.handlers (find_empty t) = true ∧
    ∀ j, j < find_empty t → slot_empty t.handlers j = false := by
  obtain ⟨i, hi1, hi2⟩ := hex
  unfold find_empty
  split
  next j h1 =>
      exfalso
      obtain ⟨ha, hb, hc, _⟩ := scan_empty_some_spec _ _ _ _ h1
      have hocc := hall j (by omega) (by omega)
      rw [hocc] at hc
      cases hc
  next h1 =>
      split
      next j h2 =>
          obtain ⟨ha, hb, hc, hd⟩ := scan_empty_some_spec _ _ _ _ h2
          exact ⟨by omega, hc, fun k hk => hd k (Nat.zero_le k) hk⟩
      next h2 =>
          exfalso
          have hocc := scan_empty_none_spec _ _ _ h2 i (Nat.zero_le i)
            (by omega)
          rw [hocc] at hi2
          cases hi2

/-- When every slot is occupied, find_empty returns the size. -/
theorem find_empty_full (t : ResponseHandlerTable)
    (hlast : t.last_index < t.handlers.length)
    (hall : ∀ i, i < t.handlers.length → slot_empty t.handlers i = false) :
    find_empty t = t.handlers.length := by
  unfold find_empty
  split
  next j h1 =>
      exfalso
      obtain ⟨ha, hb, hc, _⟩ := scan_empty_some_spec _ _ _ _ h1
      have hocc := hall j (by omega)
      rw [hocc] at hc
      cases hc
  next h1 =>
      split
      next j h2 =>
          exfalso
          obtain ⟨ha, hb, hc, _⟩ := scan_empty_some_spec _ _ _ _ h2
          have hocc := hall j (by omega)
          rw [hocc] at hc
          cases hc
      next h2 => rfl

/-- Iterated store with callable handlers: the invariant is preserved,
the vector never shrinks, the returned ids are pairwise distinct, and
an id of an occupied slot is never returned. -/
theorem storeAll_spec :
    ∀ (toks : List ResponseHandler) (t : ResponseHandlerTable),
      table_inv t → (∀ x ∈ toks, x.isSome = true) →
      (storeAll t toks).1.handlers.length ≤ 2 ^ 32 →
      table_inv (storeAll t toks).1 ∧
      t.handlers.length ≤ (storeAll t toks).1.handlers.length ∧
      ((storeAll t toks).2).Nodup ∧
      (∀ j, slot_empty t.handlers j = false → j ∉ (storeAll t toks).2) := by
  intro toks
  induction toks with
  | nil =>
      intro t hinv htoks hlen
      exact ⟨hinv, Nat.le_refl _, List.nodup_nil,
        fun j _ => List.not_mem_nil j⟩
  | cons h rest ih =>
      intro t hinv htoks hlen
      obtain ⟨hsz, hlast⟩ := hinv
      have hstep : storeAll t (h :: rest) =
          ((storeAll (store t h).1 rest).1,
           (store t h).2 :: (storeAll (store t h).1 rest).2) := rfl
      have hinv1 : table_inv (store t h).1 := store_inv t h ⟨hsz, hlast⟩
      have hlen1 : (storeAll (store t h).1 rest).1.handlers.length ≤ 2 ^ 32 := by
        rw [hstep] at hlen
        exact hlen
      have IH := ih (store t h).1 hinv1
        (fun x hx => htoks x (List.mem_cons_of_mem _ hx)) hlen1
      have hle := find_empty_le t hlast
      have hmono1 : (store t h).1.handlers.length ≤
          (storeAll (store t h).1 rest).1.handlers.length := IH.2.1
      have hidlt : find_empty t < 2 ^ 32 := by
        rcases Nat.eq_or_lt_of_le hle with heq | hlt
        · have h2 := store_fst_length t h
          rw [if_pos heq] at h2
          have : (store t h).1.handlers.length ≤ 2 ^ 32 :=
            Nat.le_trans hmono1 hlen1
          omega
        · have : t.handlers.length ≤ 2 ^ 32 :=
            Nat.le_trans (store_length_mono t h) (Nat.le_trans hmono1 hlen1)
          omega
      have hid : (store t h).2 = find_empty t := store_snd_eq t h hidlt
      have hsome : h.isSome = true := htoks h (List.mem_cons_self h rest)
      have hocc1 : slot_empty (store t h).1.handlers (find_empty t)
          = false := by
        unfold slot_empty
        rw [store_getD_index t h hsz hlast]
        cases h with
        | none => cases hsome
        | some v => rfl
      have hnotmem : (store t h).2 ∉ (storeAll (store t h).1 rest).2 := by
        rw [hid]
        exact IH.2.2.2 (find_empty t) hocc1
      refine ⟨?_, ?_, ?_, ?_⟩
      · rw [hstep]; exact IH.1
      · rw [hstep]
        exact Nat.le_trans (store_length_mono t h) hmono1
      · rw [hstep]
        exact List.nodup_cons.mpr ⟨hnotmem, IH.2.2.1⟩
      · intro j hjocc
        rw [hstep]
        have hjlt := lt_length_of_occupied _ _ hjocc
        have hjne : j ≠ (store t h).2 := by
          rw [hid]
          intro he
          rcases Nat.eq_or_lt_of_le hle with heq | hlt
          · omega
          · have hemp := find_empty_slot_empty t hlt
            rw [← he] at hemp
            rw [hemp] at hjocc
            cases hjocc
        have hjrest : j ∉ (storeAll (store t h).1 rest).2 :=
          IH.2.2.2 j (store_preserves_occupied t h j hjocc hsz hlast)
        intro hmem
        rcases List.mem_cons.mp hmem with he | hm
        · exact hjne he
        · exact hjrest hm

/-- C3: store allocates round-robin — it returns the lowest-index
empty slot strictly after the last-assigned index, wrapping to the
start when none is found before the end; when the table is full it
doubles the capacity and still returns a valid in-bounds id; and the
ids of N consecutive store calls with no intervening responses are
pairwise distinct. -/
theorem store_round_robin (t : ResponseHandlerTable) (h : ResponseHandler)
    (hsz : 0 < t.handlers.length)
    (hlast : t.last_index < t.handlers.length)
    (hw : t.handlers.length < 2 ^ 32) :
    ((store t h).2 = find_empty t) ∧
    ((∃ i, t.last_index < i ∧ i < t.handlers.length ∧
        slot_empty t.handlers i = true) →
      t.last_index < find_empty t ∧ find_empty t < t.handlers.length ∧
      slot_empty t.handlers (find_empty t) = true ∧
      ∀ j, t.last_index < j → j < find_empty t →
        slot_empty t.handlers j = false) ∧
    ((∀ i, t.last_index < i → i < t.handlers.length →
        slot_empty t.handlers i = false) →
     (∃ i, i ≤ t.last_index ∧ slot_empty t.handlers i = true) →
      find_empty t ≤ t.last_index ∧
      slot_empty t.handlers (find_empty t) = true ∧
      ∀ j, j < find_empty t → slot_empty t.handlers j = false) ∧
    ((∀ i, i < t.handlers.length → slot_empty t.handlers i = false) →
      (store t h).1.handlers.length = 2 * t.handlers.length ∧
      (store t h).2 = t.handlers.length ∧
      (store t h).2 < (store t h).1.handlers.length) ∧
    (∀ toks : List ResponseHandler, (∀ x ∈ toks, x.isSome = true) →
      (storeAll t toks).1.handlers.length ≤ 2 ^ 32 →
      ((storeAll t toks).2).Nodup) := by
  have hle := find_empty_le t hlast
  have hid : (store t h).2 = find_empty t := store_snd_eq t h (by omega)
  refine ⟨hid, fun hex => find_empty_after t hlast hex,
    fun hall hex => find_empty_wrap t hlast hall hex, ?_, ?_⟩
  · intro hall
    have hfull := find_empty_full t hlast hall
    refine ⟨?_, by rw [hid, hfull], ?_⟩
    · rw [store_fst_length, if_pos hfull]
    · rw [store_fst_length, if_pos hfull, hid, hfull]
      omega
  · intro toks htoks hfin
    exact (storeAll_spec toks t ⟨hsz, hlast⟩ htoks hfin).2.2.1

/-- Witness for C3: a two-slot table with slot 0 occupied; the next
allocation picks slot 1 (the lowest empty slot after last index 0),
and two further stores with callable handlers return distinct ids. -/
theorem store_round_robin_witness :
    ((storeAll ⟨[some 1, none], 0⟩ [some 1, some 2]).2).Nodup ∧
    0 < find_empty ⟨[some 1, none], 0⟩ := by
  have h := store_round_robin ⟨[some 1, none], 0⟩ (some 5) (by decide)
    (by decide) (by decide)
  refine ⟨h.2.2.2.2 [some 1, some 2] (by decide) (by decide), ?_⟩
  exact (h.2.1 ⟨1, by decide, by decide, by decide⟩).1

/-- Helper: rpc_request preserves the idle-writer invariant when the
request serializes at least one byte. -/
theorem rpc_request_inv (w : Writer) (n : Nat) (hn : 0 < n)
    (hinv : write_inv w) : write_inv (rpc_request w n) := by
  unfold write_inv at hinv ⊢
  unfold rpc_request
  by_cases hb : w.buffer = 0
  · rw [if_pos hb]
    simp
    omega
  · rw [if_neg hb]
    simp only []
    rw [hinv]
    constructor
    · intro h0; omega
    · intro h0; omega

/-- Helper: the write-ready handler preserves the idle-writer
invariant. -/
theorem io_can_write_inv (w : Writer) (n : Nat) (w1 : Writer)
    (hinv : write_inv w) (h : io_can_write w (.ok n) = .continued w1) :
    write_inv w1 := by
  simp only [io_can_write] at h
  by_cases hr : w.buffer - n = 0
  · rw [if_pos hr] at h
    cases h
    simp [write_inv, hr]
  · rw [if_neg hr] at h
    cases h
    unfold write_inv at hinv ⊢
    show w.suspended = true ↔ w.buffer - n = 0
    rw [hinv]
    constructor
    · intro h0; omega
    · intro h0; omega

/-- Helper: a run of the write path preserves the idle-writer
invariant. -/
theorem writer_run_inv :
    ∀ (evs : List WriteEvent) (w : Writer), write_inv w →
      (∀ e ∈ evs, event_ok e) →
      ∀ w1, writer_run w evs = .continued w1 → write_inv w1 := by
  intro evs
  induction evs with
  | nil =>
      intro w hinv _ w1 h
      cases h
      exact hinv
  | cons e es ih =>
      intro w hinv hok w1 h
      cases e with
      | request n =>
          have hn : 0 < n := hok (.request n) (List.mem_cons_self _ _)
          have hnext : writer_run w (WriteEvent.request n :: es) =
              writer_run (rpc_request w n) es := rfl
          rw [hnext] at h
          exact ih (rpc_request w n) (rpc_request_inv w n hn hinv)
            (fun x hx => hok x (List.mem_cons_of_mem _ hx)) w1 h
      | ready r =>
          cases r with
          | err =>
              have : writer_run w (WriteEvent.ready .err :: es) =
                  .aborted := rfl
              rw [this] at h
              cases h
          | ok n =>
              have hnext : writer_run w (WriteEvent.ready (.ok n) :: es) =
                  (match io_can_write w (.ok n) with
                   | .aborted => WriteOutcome.aborted
                   | .continued w2 => writer_run w2 es) := rfl
              rw [hnext] at h
              cases hstep : io_can_write w (.ok n) with
              | aborted =>
                  rw [hstep] at h
                  cases h
              | continued w2 =>
                  rw [hstep] at h
                  exact ih w2 (io_can_write_inv w n w2 hinv hstep)
                    (fun x hx => hok x (List.mem_cons_of_mem _ hx)) w1 h

/-- C7: a request that finds the buffer empty triggers exactly one
resume of the write source and a request that finds it non-empty
triggers none; the write-ready handler leaves the source suspended
exactly when the buffer drained to empty; the write source starts
suspended with an empty buffer; and every valid run of the write path
keeps the invariant that outside callbacks the write source is
suspended exactly when the write buffer is empty. -/
theorem write_source_suspend_resume (w : Writer) (hinv : write_inv w) :
    write_inv writer_init ∧
    (∀ n, w.buffer = 0 →
      (rpc_request w n).resume_count = w.resume_count + 1 ∧
      (rpc_request w n).suspended = false) ∧
    (∀ n, w.buffer ≠ 0 →
      (rpc_request w n).resume_count = w.resume_count ∧
      (rpc_request w n).suspended = w.suspended) ∧
    (∀ n w1, io_can_write w (.ok n) = .continued w1 →
      (w1.suspended = true ↔ w1.buffer = 0)) ∧
    (∀ evs, (∀ e ∈ evs, event_ok e) → ∀ w1,
      writer_run w evs = .continued w1 → write_inv w1) := by
  refine ⟨by simp [write_inv, writer_init], ?_, ?_, ?_, ?_⟩
  · intro n hb
    unfold rpc_request
    rw [if_pos hb]
    exact ⟨rfl, rfl⟩
  · intro n hb
    unfold rpc_request
    rw [if_neg hb]
    exact ⟨rfl, rfl⟩
  · intro n w1 h
    exact io_can_write_inv w n w1 hinv h
  · intro evs hok w1 h
    exact writer_run_inv evs w hinv hok w1 h

/-- Witness for C7 from the initial writer state. -/
theorem write_source_suspend_resume_witness :
    (rpc_request writer_init 5).resume_count =
      writer_init.resume_count + 1 ∧
    (rpc_request writer_init 5).suspended = false ∧
    write_inv writer_init := by
  have h := write_source_suspend_resume writer_init
    (by simp [write_inv, writer_init])
  obtain ⟨h1, h2⟩ := h.2.1 5 rfl
  exact ⟨h1, h2, h.1⟩

/-- C8: a failed read or write syscall (a -1 return) after the
connection is established takes the fatal path through io_error,
which terminates the whole process; neither handler surfaces a
recoverable error value to callers. -/
theorem io_failure_aborts :
    (∀ decoded, io_can_read .err decoded = .aborted) ∧
    (∀ w, io_can_write w .err = .aborted) :=
  ⟨fun _ => rfl, fun _ => rfl⟩

/-- Branch equation: an address reaching the sun_path size is rejected
before any syscall. -/
theorem connect_eq_einval (env : ConnectEnv) (addr : String)
    (s : SessionFds) (hlen : sun_path_size ≤ addr.length) :
    connect env addr s = ⟨EINVAL, s, [], false, false⟩ := by
  unfold connect
  rw [if_pos hlen]

/-- Branch equation: socket creation fails. -/
theorem connect_eq_socket_error (e ce : Int) (addr : String)
    (s : SessionFds) (hlen : addr.length < sun_path_size) :
    connect ⟨.error e, ce⟩ addr s = ⟨e, s, [], true, false⟩ := by
  show (if sun_path_size ≤ addr.length then
      (⟨EINVAL, s, [], false, false⟩ : ConnectResult)
    else ⟨e, s, [], true, false⟩) = ⟨e, s, [], true, false⟩
  rw [if_neg (Nat.not_le_of_lt hlen)]

/-- Branch equation: the connect syscall fails; the socket descriptor
is not closed. -/
theorem connect_eq_syscall_error (fd : Nat) (ce : Int) (addr : String)
    (s : SessionFds) (hlen : addr.length < sun_path_size) (hce : ce ≠ 0) :
    connect ⟨.ok fd, ce⟩ addr s = ⟨ce, s, [fd], true, true⟩ := by
  show (if sun_path_size ≤ addr.length then
      (⟨EINVAL, s, [], false, false⟩ : ConnectResult)
    else if ce ≠ 0 then ⟨ce, s, [fd], true, true⟩
    else ⟨0, ⟨(fd : Int), (fd : Int)⟩, [fd].erase fd, true, true⟩) =
      ⟨ce, s, [fd], true, true⟩
  rw [if_neg (Nat.not_le_of_lt hlen), if_pos hce]

/-- Branch equation: the connection succeeds and the socket becomes
both session descriptors. -/
theorem connect_eq_ok (fd : Nat) (ce : Int) (addr : String)
    (s : SessionFds) (hlen : addr.length < sun_path_size)
    (hce : ¬ ce ≠ 0) :
    connect ⟨.ok fd, ce⟩ addr s =
      ⟨0, ⟨(fd : Int), (fd : Int)⟩, [fd].erase fd, true, true⟩ := by
  show (if sun_path_size ≤ addr.length then
      (⟨EINVAL, s, [], false, false⟩ : ConnectResult)
    else if ce ≠ 0 then ⟨ce, s, [fd], true, true⟩
    else ⟨0, ⟨(fd : Int), (fd : Int)⟩, [fd].erase fd, true, true⟩) =
      ⟨0, ⟨(fd : Int), (fd : Int)⟩, [fd].erase fd, true, true⟩
  rw [if_neg (Nat.not_le_of_lt hlen), if_neg hce]

/-- C6: connect rejects with EINVAL before creating any socket exactly
the addresses that reach the sun_path size; every shorter address
proceeds to the socket syscall, and to the connect syscall when the
socket was created. -/
theorem connect_addr_length_check (env : ConnectEnv) (s : SessionFds)
    (addr : String) :
    (((connect env addr s).ret = EINVAL ∧
      (connect env addr s).socket_attempted = false) ↔
      sun_path_size ≤ addr.length) ∧
    (addr.length < sun_path_size →
      (connect env addr s).socket_attempted = true ∧
      ∀ fd, env.socket_result = .ok fd →
        (connect env addr s).connect_attempted = true) := by
  obtain ⟨sr, ce⟩ := env
  by_cases hlen : sun_path_size ≤ addr.length
  · constructor
    · rw [connect_eq_einval ⟨sr, ce⟩ addr s hlen]
      simp [hlen]
    · intro hc; omega
  · have hlt : addr.length < sun_path_size := Nat.lt_of_not_le hlen
    have hatt : (connect ⟨sr, ce⟩ addr s).socket_attempted = true := by
      cases sr with
      | error e => rw [connect_eq_socket_error e ce addr s hlt]
      | ok fd =>
          by_cases h3 : ce ≠ 0
          · rw [connect_eq_syscall_error fd ce addr s hlt h3]
          · rw [connect_eq_ok fd ce addr s hlt h3]
    refine ⟨⟨?_, fun hc => absurd hc hlen⟩, fun _ => ⟨hatt, ?_⟩⟩
    · intro hc
      obtain ⟨hc1, hc2⟩ := hc
      rw [hatt] at hc2
      cases hc2
    · intro fd hfd
      have hfd2 : sr = .ok fd := hfd
      subst hfd2
      by_cases h3 : ce ≠ 0
      · rw [connect_eq_syscall_error fd ce addr s hlt h3]
      · rw [connect_eq_ok fd ce addr s hlt h3]

/-- Witness for C6: a short address proceeds to the socket syscall; an
address of exactly the sun_path size is rejected with EINVAL. -/
theorem connect_addr_length_check_witness :
    (connect ⟨.ok 4, 0⟩ "nvim.sock" session_init).socket_attempted
      = true ∧
    (connect ⟨.ok 4, 0⟩ (String.mk (List.replicate 104 'a'))
      session_init).ret = EINVAL := by
  have h1 := connect_addr_length_check ⟨.ok 4, 0⟩ session_init "nvim.sock"
  have h2 := connect_addr_length_check ⟨.ok 4, 0⟩ session_init
    (String.mk (List.replicate 104 'a'))
  exact ⟨(h1.2 (by decide)).1, (h2.1.mpr (by decide)).1⟩

/-- C5 counterexample: with the socket created as descriptor 3 and the
connect syscall failing with errno 61, connect returns the error but
leaves descriptor 3 open — the claim that every descriptor opened
during a failed setup operation is closed before returning is false on
the code. -/
theorem connect_descriptor_leak :
    connect ⟨.ok 3, 61⟩ "nvim.sock" session_init =
      ⟨61, session_init, [3], true, true⟩ ∧
    (3 : Nat) ∈ (connect ⟨.ok 3, 61⟩ "nvim.sock" session_init).leaked :=
  ⟨rfl, by decide⟩

/-- C5 amended: every failure of spawn returns the error code, closes
each descriptor the operation opened and leaves the session
descriptors unchanged; connect failures return the error code and
leave the session descriptors unchanged, and a failure before or at
socket creation leaves no descriptor open, but when the connect
syscall itself fails the already-created socket descriptor is left
open at return. -/
theorem setup_failure_no_partial_setup (es : SpawnEnv) (ec : ConnectEnv)
    (s : SessionFds) (addr : String) :
    ((spawn es s).ret ≠ 0 →
      (spawn es s).fds = s ∧ (spawn es s).leaked = []) ∧
    (sun_path_size ≤ addr.length →
      connect ec addr s = ⟨EINVAL, s, [], false, false⟩) ∧
    (∀ e, ec.socket_result = .error e → addr.length < sun_path_size →
      (connect ec addr s).ret = e ∧ (connect ec addr s).fds = s ∧
      (connect ec addr s).leaked = []) ∧
    (∀ fd, ec.socket_result = .ok fd → ec.connect_errno ≠ 0 →
      addr.length < sun_path_size →
      (connect ec addr s).ret = ec.connect_errno ∧
      (connect ec addr s).fds = s ∧
      (connect ec addr s).leaked = [fd]) := by
  obtain ⟨sr, ce⟩ := ec
  refine ⟨?_, ?_, ?_, ?_⟩
  · intro hret
    obtain ⟨p1, p2, pe⟩ := es
    cases p1 with
    | error ec1 => exact ⟨rfl, rfl⟩
    | ok pr1 =>
        obtain ⟨p1r, p1w⟩ := pr1
        cases p2 with
        | error ec2 =>
            refine ⟨rfl, ?_⟩
            show ([p1r, p1w].erase p1r).erase p1w = []
            simp
        | ok pr2 =>
            obtain ⟨p2r, p2w⟩ := pr2
            by_cases h3 : pe ≠ 0
            · constructor
              · show (if pe ≠ 0 then
                    (⟨pe, s, (((([p1r, p1w, p2r, p2w]).erase p1r).erase
                      p1w).erase p2r).erase p2w⟩ : SpawnResult)
                  else ⟨0, ⟨(p1r : Int), (p2w : Int)⟩,
                    (((([p1r, p1w, p2r, p2w]).erase p1r).erase p1w).erase
                      p2r).erase p2w⟩).fds = s
                rw [if_pos h3]
              · show (if pe ≠ 0 then
                    (⟨pe, s, (((([p1r, p1w, p2r, p2w]).erase p1r).erase
                      p1w).erase p2r).erase p2w⟩ : SpawnResult)
                  else ⟨0, ⟨(p1r : Int), (p2w : Int)⟩,
                    (((([p1r, p1w, p2r, p2w]).erase p1r).erase p1w).erase
                      p2r).erase p2w⟩).leaked = []
                rw [if_pos h3]
                simp
            · exfalso
              apply hret
              show (if pe ≠ 0 then
                  (⟨pe, s, (((([p1r, p1w, p2r, p2w]).erase p1r).erase
                    p1w).erase p2r).erase p2w⟩ : SpawnResult)
                else ⟨0, ⟨(p1r : Int), (p2w : Int)⟩,
                  (((([p1r, p1w, p2r, p2w]).erase p1r).erase p1w).erase
                    p2r).erase p2w⟩).ret = 0
              rw [if_neg h3]
  · intro hlen
    exact connect_eq_einval ⟨sr, ce⟩ addr s hlen
  · intro e he hlen
    have he2 : sr = .error e := he
    subst he2
    rw [connect_eq_socket_error e ce addr s hlen]
    exact ⟨rfl, rfl, rfl⟩
  · intro fd hfd herr hlen
    have hfd2 : sr = .ok fd := hfd
    subst hfd2
    rw [connect_eq_syscall_error fd ce addr s hlen herr]
    exact ⟨rfl, rfl, rfl⟩

/-- Witness for C5 amended: a spawn whose first pipe fails with code 5
leaks nothing and leaves the descriptors unset; a connect whose
connect syscall fails leaves the socket descriptor open. -/
theorem setup_failure_no_partial_setup_witness :
    (spawn ⟨.error 5, .error 9, 0⟩ session_init).fds = session_init ∧
    (spawn ⟨.error 5, .error 9, 0⟩ session_init).leaked = [] ∧
    (connect ⟨.ok 3, 61⟩ "a" session_init).leaked = [3] := by
  have h := setup_failure_no_partial_setup ⟨.error 5, .error 9, 0⟩
    ⟨.ok 3, 61⟩ session_init "a"
  obtain ⟨hf1, hf2⟩ := h.1 (by decide)
  exact ⟨hf1, hf2, (h.2.2.2 3 rfl (by decide) (by decide)).2.2⟩

end Neovim
